import Mathlib

/-!
Verification of the cDNA microarray viewer core: a shallow embedding of the
image-processing and pyramid/viewport code in mdna.py, scrollableimage.py and
gui.py, followed by theorems about it.

Modelling conventions.
Raster pixels are total functions; 16-bit sample values are natural numbers.
Python float expressions are modelled as exact rational arithmetic carried by
unreduced integer fractions (the Frac type below); the rounding of binary
floating point (for instance that the double closest to 1.15 is slightly
below 1.15) is not modelled.  The Python builtin int() applied to a
nonnegative or negative exact fraction truncates toward zero, which is
Int.tdiv of the numerator by the denominator.  Python exceptions (TypeError,
KeyError, AttributeError, cv2.error, ZeroDivisionError) are modelled by
Option or Except results; an operation that raises is modelled as returning
none, which in sequences of user events aborts the sequence.  Display-only
side effects (Tk canvas updates, logging) are not modelled.
-/

namespace MdnaViewer

/-- An exact fraction with integer numerator and denominator, used to carry
the value of a Python float expression without loss.  All fractions built by
the model have a positive denominator. -/
structure Frac where
  num : ℤ
  den : ℤ

/-- Embed an integer quantity as a fraction. -/
def Frac.ofInt (n : ℤ) : Frac := ⟨n, 1⟩

/-- Exact product of two fraction-valued float expressions. -/
def Frac.mul (a b : Frac) : Frac := ⟨a.num * b.num, a.den * b.den⟩

/-- Exact quotient of two fraction-valued float expressions. -/
def Frac.div (a b : Frac) : Frac := ⟨a.num * b.den, a.den * b.num⟩

/-- The Python builtin int() applied to a float value: truncation toward
zero.  Int.tdiv rounds toward zero, matching, for denominators that are
positive (as everywhere in this model). -/
def Frac.trunc (a : Frac) : ℤ := Int.tdiv a.num a.den

/-- A single-channel raster: width, height and a total pixel function
(x across the width, y down the height). -/
structure Raster where
  w : ℕ
  h : ℕ
  pix : ℕ → ℕ → ℕ

/-- A three-channel raster, as produced by cv2.merge of three equally sized
single-channel rasters. -/
structure Raster3 where
  w : ℕ
  h : ℕ
  pix : ℕ → ℕ → ℕ × ℕ × ℕ

/-- One sample of np.clip(cy, lower, upper): numpy computes
minimum(maximum(s, lower), upper). -/
def clip (s lower upper : ℕ) : ℕ := min (max s lower) upper

/-- One sample of MDNA.windowing (mdna.py lines 138 and 139): clip, subtract
the lower bound, divide by the window width, scale by 255, and convert with
astype(np.uint8), which truncates.  The exact value of
(clip(s) - lower) / (upper - lower) * 255 lies in [0, 255], so the single
truncation at the uint8 cast is the natural-number division below.
When upper = lower the numerator is zero and numpy evaluates 0/0 to NaN
(with a runtime warning, not an exception); the subsequent uint8 cast maps
NaN to 0 on the reference platform, and natural-number division by zero in
this model likewise yields 0. -/
def windowPix (s lower upper : ℕ) : ℕ :=
  (clip s lower upper - lower) * 255 / (upper - lower)

/-- MDNA.windowing (mdna.py lines 125 to 141): elementwise windowing of a
raster; the output has the dimensions of the input. -/
def windowing (cy : Raster) (lower upper : ℕ) : Raster :=
  ⟨cy.w, cy.h, fun x y => windowPix (cy.pix x y) lower upper⟩

/-- The windowing formula as the specification words it (section 4.1):
out = round((clip(s) - lower) / (upper - lower) * 255).  This definition
follows the specification text, for comparison with windowPix, which is
translated from the code. -/
def windowPixSpec (s lower upper : ℕ) : ℤ :=
  round (((clip s lower upper : ℚ) - (lower : ℚ)) / ((upper : ℚ) - (lower : ℚ)) * 255)

/-- Channel extraction im[:, :, c] from a three-channel raster. -/
def chan (im : Raster3) (c : ℕ) : Raster :=
  ⟨im.w, im.h, fun x y =>
    if c = 0 then (im.pix x y).1
    else if c = 1 then (im.pix x y).2.1
    else (im.pix x y).2.2⟩

/-- np.zeros_like of a single-channel raster. -/
def zeros_like (r : Raster) : Raster := ⟨r.w, r.h, fun _ _ => 0⟩

/-- Python exceptions that the modelled code can raise. -/
inductive PyErr where
  | dimensionMismatch
  | typeErr
  | attrErr
  | invalidChannel
  | keyErr
deriving DecidableEq

/-- cv2.merge of three single-channel rasters: stacks them as the channels
of one three-channel raster; cv2 raises an error (the DimensionMismatch of
the specification) unless all inputs have identical dimensions. -/
def merge3 (a b c : Raster) : Except PyErr Raster3 :=
  if a.w = b.w ∧ a.h = b.h ∧ a.w = c.w ∧ a.h = c.h then
    Except.ok ⟨a.w, a.h, fun x y => (a.pix x y, b.pix x y, c.pix x y)⟩
  else Except.error PyErr.dimensionMismatch

/-- MDNA.get_combined_image (mdna.py lines 109 to 123): channel 0 of the
Cy5 (red) input, channel 1 of the Cy3 (green) input, and a zero channel
shaped like channel 1 of the Cy3 input, merged. -/
def get_combined_image (cy3 cy5 : Raster3) : Except PyErr Raster3 :=
  merge3 (chan cy5 0) (chan cy3 1) (zeros_like (chan cy3 1))

/-- MDNA._get_c_image (mdna.py lines 53 to 74): broadcast a grayscale
raster into one colour slot of a three-channel raster; channel 1 is green,
channel 2 is red; any other channel raises.  A None image raises an
AttributeError at zeros_like(im, dtype=im.dtype). -/
def get_c_image (im : Option Raster) (channel : ℕ) : Except PyErr Raster3 :=
  match im with
  | none => Except.error PyErr.attrErr
  | some r =>
    if channel = 1 then Except.ok ⟨r.w, r.h, fun x y => (0, r.pix x y, 0)⟩
    else if channel = 2 then Except.ok ⟨r.w, r.h, fun x y => (r.pix x y, 0, 0)⟩
    else Except.error PyErr.invalidChannel

/-- MDNA._im_load (mdna.py lines 31 to 51) for the channelled load path:
cv2.imread returns None when the file cannot be decoded; the whole body is
wrapped in a try/except that logs and returns None, so a failure of
_get_c_image also yields None. -/
def im_load (imread_result : Option Raster) (channel : ℕ) : Option Raster3 :=
  match get_c_image imread_result channel with
  | Except.ok im3 => some im3
  | Except.error _ => none

/-- Model of cv2.resize (an external library call).  No claim examines the
pixel content of a resized raster, only its dimensions; the sampling policy
here is a stand-in for the INTER_LINEAR interpolation of cv2.  Nonpositive
target dimensions, which cv2 would reject, are clamped to zero width or
height rasters. -/
def resample (image : Raster) (tw th : ℤ) : Raster :=
  ⟨tw.toNat, th.toNat, fun x y =>
    image.pix (x * image.w / tw.toNat) (y * image.h / th.toNat)⟩

/-- ScrollableImage.resize_keeping_ratio (scrollableimage.py lines 487 to
517).  The Python code first applies int() to whichever of width and height
is given, reads the image shape, and then: with neither given it returns the
image and its dimensions unchanged; with only height given it derives the
width as int(w * (height / float(h))); otherwise (width given, a possibly
given height being ignored) it derives the height as
int(h * (width / float(w))).  The derived dimension is the exact rational
product truncated toward zero; division by a zero image dimension, which
would raise ZeroDivisionError in Python, yields 0 here and is never reached
by the theorems below. -/
def resize_keeping_ratio (image : Raster) (width height : Option Frac) :
    Raster × ℤ × ℤ :=
  match width.map Frac.trunc, height.map Frac.trunc with
  | none, none => (image, (image.w : ℤ), (image.h : ℤ))
  | none, some ht =>
    (resample image (Int.tdiv ((image.w : ℤ) * ht) (image.h : ℤ)) ht,
     Int.tdiv ((image.w : ℤ) * ht) (image.h : ℤ), ht)
  | some wt, _ =>
    (resample image wt (Int.tdiv ((image.h : ℤ) * wt) (image.w : ℤ)),
     wt, Int.tdiv ((image.h : ℤ) * wt) (image.w : ℤ))

/-- A pyramid cache entry, the value stored at one pyramid key: the resized
raster, its dimensions as stored (the second component of the Python tuple),
and the contrast window that produced it. -/
structure Entry where
  im : Raster
  dims : ℤ × ℤ
  contr : ℕ × ℕ

/-- A key of the integer part of the pyramid dictionary: a Python int, or
the Python value None (which becomes a key when zooming in from the
outscroll level before any integer level was remembered). -/
abbrev PKey := Option ℤ

/-- The value of self.c_level: an integer level, the Python value None, or
the string key used for the fit-to-viewport level. -/
inductive Lvl where
  | i (n : ℤ)
  | nil
  | out
deriving DecidableEq

/-- The PKey carried by a Python int-or-None level value, as assigned to
self.c_level from self.p_level. -/
def lvlOfKey : PKey → Lvl
  | some n => Lvl.i n
  | none => Lvl.nil

/-- The state of one ScrollableImage: the pyramid dictionary (integer and
None keys in an association list, the outscroll key separately), the current
and previous levels, the pan offsets, the session contrast, the loaded
16-bit raster and its currently windowed 8-bit copy, the canvas size, the
old dimensions recorded at the top of mouse_scroll, and an instrumentation
counter of pyramid builds (incremented by add_to_pyramid, per the build
counter the specification asks coherence to be verified with). -/
structure ViewState where
  pyramid : List (PKey × Entry)
  outscroll : Option Entry
  c_level : Lvl
  p_level : Option ℤ
  offset_x : ℤ
  offset_y : ℤ
  contr : ℕ × ℕ
  or_im : Raster
  orig_windowed_im : Raster
  canvasW : ℤ
  canvasH : ℤ
  old_img : Option (ℤ × ℤ)
  builds : ℕ

/-- Dictionary lookup in the integer-or-None keyed part of the pyramid. -/
def lookupKey (py : List (PKey × Entry)) (k : PKey) : Option Entry :=
  match py with
  | [] => none
  | (k2, e) :: t => if k2 = k then some e else lookupKey t k

/-- Dictionary assignment self.pyramid[k] = e: the new binding shadows and
removes any previous binding of the same key. -/
def setKey (py : List (PKey × Entry)) (k : PKey) (e : Entry) :
    List (PKey × Entry) :=
  (k, e) :: py.filter (fun kv => kv.1 ≠ k)

/-- Lookup self.pyramid[self.c_level] for any current-level value. -/
def lookupLvl (s : ViewState) : Lvl → Option Entry
  | Lvl.i n => lookupKey s.pyramid (some n)
  | Lvl.nil => lookupKey s.pyramid none
  | Lvl.out => s.outscroll

/-- The class constant ZOOM_FACTOR = 1.15, modelled as the exact rational
23/20 (the floating point literal is minutely below this value). -/
def ZOOM_FACTOR : Frac := ⟨23, 20⟩

/-- The class constant MAX_INZOOM_LEVEL = 13. -/
def MAX_INZOOM_LEVEL : ℤ := 13

/-- ScrollableImage.add_to_pyramid (scrollableimage.py lines 308 to 322):
resize the given image to the target dimensions keeping its aspect ratio and
store the result at the given level, tagged with the current session
contrast.  The builds counter records that a resize was performed. -/
def add_to_pyramid (s : ViewState) (level : PKey) (im : Raster)
    (width height : Frac) : ViewState :=
  { s with
    pyramid := setKey s.pyramid level
      ⟨(resize_keeping_ratio im (some width) (some height)).1,
       ((resize_keeping_ratio im (some width) (some height)).2.1,
        (resize_keeping_ratio im (some width) (some height)).2.2),
       s.contr⟩,
    builds := s.builds + 1 }

/-- The cache staleness test of scrollableimage.py lines 348, 369 and 377:
a level needs (re)building when it is absent from the pyramid or its stored
contrast differs from the session contrast. -/
def needs_rebuild (s : ViewState) (level : PKey) : Bool :=
  match lookupKey s.pyramid level with
  | none => true
  | some e => decide (e.contr ≠ s.contr)

/-- The get_or_build operation of the specification (section 4.4), as the
code realises it in mouse_scroll lines 348 to 350: if the level is present
with the session contrast, the cached entry is used as is; otherwise
add_to_pyramid resizes the currently windowed image to the target dimensions
and stores the entry.  The returned entry is the pyramid content at the
level after the call, which is what the subsequent display code reads. -/
def get_or_build (s : ViewState) (level : PKey) (width height : Frac) :
    ViewState × Option Entry :=
  (if needs_rebuild s level then
      add_to_pyramid s level s.orig_windowed_im width height
    else s,
   lookupKey (if needs_rebuild s level then
      add_to_pyramid s level s.orig_windowed_im width height
    else s).pyramid level)

/-- Clamping of a pan offset into [0, bound], as written in drag_im and
_zoom_image: max(0, min(offset, bound)). -/
def clampOffset (v bound : ℤ) : ℤ := max 0 (min v bound)

/-- ScrollableImage.drag_im (scrollableimage.py lines 214 to 236) with the
mouse delta (dx, dy): subtract the delta from the offsets and clamp both
into the valid range for the current level dimensions.  A missing current
level would raise KeyError. -/
def drag_im (s : ViewState) (dx dy : ℤ) : Option ViewState :=
  match lookupLvl s s.c_level with
  | none => none
  | some e =>
    some { s with
      offset_x := clampOffset (s.offset_x - dx) (max (e.dims.1 - s.canvasW) 0),
      offset_y := clampOffset (s.offset_y - dy) (max (e.dims.2 - s.canvasH) 0) }

/-- ScrollableImage._zoom_image (scrollableimage.py lines 395 to 428):
scale the recorded mouse position by ZOOM_FACTOR or its inverse depending on
whether the new level is wider or taller than the old dimensions, recentre
the offsets on the cursor, and clamp them into the valid range.  Reading a
missing current level or comparing against old dimensions that are still
None raises. -/
def zoom_image (s : ViewState) (mx my cmx cmy : ℤ) : Option ViewState :=
  match lookupLvl s s.c_level, s.old_img with
  | some e, some old =>
    some { s with
      offset_x := clampOffset
        ((Frac.mul (Frac.ofInt mx)
            (if old.1 < e.dims.1 then ZOOM_FACTOR
             else Frac.div (Frac.ofInt 1) ZOOM_FACTOR)).trunc - cmx)
        (max (e.dims.1 - s.canvasW) 0),
      offset_y := clampOffset
        ((Frac.mul (Frac.ofInt my)
            (if old.2 < e.dims.2 then ZOOM_FACTOR
             else Frac.div (Frac.ofInt 1) ZOOM_FACTOR)).trunc - cmy)
        (max (e.dims.2 - s.canvasH) 0) }
  | _, _ => none

/-- The common tail of mouse_scroll: mx = offset_x + event.x,
my = offset_y + event.y, then _zoom_image(mx, my, event.x, event.y). -/
def zoom_at_cursor (s : ViewState) (ex ey : ℤ) : Option ViewState :=
  zoom_image s (s.offset_x + ex) (s.offset_y + ey) ex ey

/-- The rebuild-then-recentre step shared by the zoom-in and integer
zoom-out branches of mouse_scroll: the cache check of lines 348 to 350 (or
369 to 370) followed by the _zoom_image call. -/
def rebuild_if_stale (s : ViewState) (key : PKey) (tw th : Frac) : ViewState :=
  if needs_rebuild s key then add_to_pyramid s key s.orig_windowed_im tw th
  else s

/-- Cache check followed by cursor-anchored recentring. -/
def rebuild_and_zoom (s : ViewState) (key : PKey) (tw th : Frac) (ex ey : ℤ) :
    Option ViewState :=
  zoom_at_cursor (rebuild_if_stale s key tw th) ex ey

/-- The entry stored at the outscroll key (mouse_scroll lines 358 to 360):
the windowed image resized to exactly the canvas height. -/
def fit_entry (s : ViewState) : Entry :=
  ⟨(resize_keeping_ratio s.orig_windowed_im none
      (some (Frac.ofInt s.canvasH))).1,
   ((resize_keeping_ratio s.orig_windowed_im none
       (some (Frac.ofInt s.canvasH))).2.1,
    (resize_keeping_ratio s.orig_windowed_im none
       (some (Frac.ofInt s.canvasH))).2.2),
   s.contr⟩

/-- Install the outscroll entry and make it current. -/
def outscroll_fit (s : ViewState) : ViewState :=
  { s with outscroll := some (fit_entry s), c_level := Lvl.out }

/-- Count of pyramid bindings whose key is an integer at most n; the
decreasing measure of the level-search loop below. -/
def keyLE (n : ℤ) (kv : PKey × Entry) : Bool :=
  match kv.1 with
  | some k => decide (k ≤ n)
  | none => false

/-- Measure for the while loop of mouse_scroll lines 373 to 375. -/
def keysLE (py : List (PKey × Entry)) (n : ℤ) : ℕ :=
  (py.filter (keyLE n)).length

/-- The measure is monotone in the level bound. -/
def keysLE_mono (py : List (PKey × Entry)) (m n : ℤ) (h : m ≤ n) :
    keysLE py m ≤ keysLE py n := by
  induction py with
  | nil => exact Nat.le_refl 0
  | cons kv t ih =>
    by_cases hm : keyLE m kv = true
    · have hn : keyLE n kv = true := by
        unfold keyLE at hm ⊢
        cases hk : kv.1 with
        | none => rw [hk] at hm; exact absurd hm (by simp)
        | some k =>
          rw [hk] at hm
          simp only [decide_eq_true_eq] at hm ⊢
          exact le_trans hm h
      simp only [keysLE, List.filter_cons, hm, hn, if_true, List.length_cons]
      exact Nat.succ_le_succ ih
    · simp only [keysLE, List.filter_cons]
      rw [if_neg hm]
      by_cases hn : keyLE n kv = true
      · rw [if_pos hn]
        exact le_trans ih (Nat.le_succ _)
      · rw [if_neg hn]
        exact ih

/-- A successful lookup at an integer level makes the measure strictly
decrease when the level decreases by one. -/
def keysLE_lookup_lt (py : List (PKey × Entry)) (level : ℤ) (e : Entry)
    (hl : lookupKey py (some level) = some e) :
    keysLE py (level - 1) < keysLE py level := by
  induction py with
  | nil => exact absurd hl (by simp [lookupKey])
  | cons kv t ih =>
    rcases kv with ⟨k, ev⟩
    by_cases hk : k = some level
    · subst hk
      have h1 : keyLE level (some level, ev) = true := by
        simp [keyLE]
      have h2 : keyLE (level - 1) (some level, ev) = false := by
        simp [keyLE]
      simp only [keysLE, List.filter_cons, h1, h2, if_true, if_false,
        List.length_cons]
      calc (t.filter (keyLE (level - 1))).length
          ≤ (t.filter (keyLE level)).length := keysLE_mono t _ _ (by omega)
        _ < (t.filter (keyLE level)).length + 1 := Nat.lt_succ_self _
    · have hl2 : lookupKey t (some level) = some e := by
        unfold lookupKey at hl
        rw [if_neg hk] at hl
        exact hl
      have ih2 := ih hl2
      by_cases hm : keyLE (level - 1) (k, ev) = true
      · have hn : keyLE level (k, ev) = true := by
          unfold keyLE at hm ⊢
          cases hk2 : k with
          | none => rw [hk2] at hm; exact absurd hm (by simp)
          | some k3 =>
            rw [hk2] at hm
            simp only [decide_eq_true_eq] at hm ⊢
            omega
        simp only [keysLE, List.filter_cons, hm, hn, if_true,
          List.length_cons] at ih2 ⊢
        exact Nat.succ_lt_succ ih2
      · simp only [keysLE, List.filter_cons] at ih2 ⊢
        rw [if_neg hm]
        by_cases hn : keyLE level (k, ev) = true
        · rw [if_pos hn]
          exact lt_trans ih2 (Nat.lt_succ_self _)
        · rw [if_neg hn]
          exact ih2

/-- The while loop of mouse_scroll lines 373 to 375, started at an integer
level: walk the level down while the pyramid holds a level taller than the
outscroll entry. -/
def findLevel (py : List (PKey × Entry)) (outH : ℤ) (level : ℤ) : ℤ :=
  match hl : lookupKey py (some level) with
  | none => level
  | some e =>
    if outH < e.dims.2 then findLevel py outH (level - 1) else level
termination_by keysLE py level
decreasing_by exact keysLE_lookup_lt py level e hl

/-- The while loop of mouse_scroll lines 373 to 375 including its start at
self.p_level, which can be the Python value None: with a None start the
membership test may pass (None can be a pyramid key), in which case the
decrement raises TypeError (modelled as none); otherwise the loop exits
immediately with None. -/
def outscroll_loop_start (s : ViewState) (outH : ℤ) : Option PKey :=
  match s.p_level with
  | some n => some (some (findLevel s.pyramid outH n))
  | none =>
    match lookupKey s.pyramid none with
    | some e => if outH < e.dims.2 then none else some none
    | none => some none

/-- The body after the while loop in the outscroll-from-outscroll branch
(mouse_scroll lines 377 to 381): rebuild the found level if missing or
stale, with target dimensions taken from the level above divided by
ZOOM_FACTOR, then make the found level current.  A None found level entering
the rebuild raises TypeError at level + 1; a missing level + 1 raises
KeyError. -/
def outscroll_else (s : ViewState) (lvl : PKey) : Option ViewState :=
  if needs_rebuild s lvl then
    match lvl with
    | none => none
    | some n =>
      match lookupKey s.pyramid (some (n + 1)) with
      | none => none
      | some e1 =>
        some { add_to_pyramid s (some n) s.orig_windowed_im
                 (Frac.div (Frac.ofInt e1.dims.1) ZOOM_FACTOR)
                 (Frac.div (Frac.ofInt e1.dims.2) ZOOM_FACTOR)
               with c_level := Lvl.i n }
  else some { s with c_level := lvlOfKey lvl }

/-- ScrollableImage.mouse_scroll (scrollableimage.py lines 324 to 393).
The handler reads the current level dimensions (KeyError if absent), records
them as the old dimensions, then branches on the sign of the scroll delta:
zoom in (increment the level, resuming from the remembered previous level
when at outscroll, no-op at MAX_INZOOM_LEVEL), zoom out (switch to the
outscroll fit level when the candidate height would not exceed the canvas,
otherwise decrement the level, with a level-search loop when already at
outscroll), or, for a zero delta, return.  Every completed branch ends in
the cursor-anchored _zoom_image.  The real-time scroll throttle at the top
of the handler and the display side effects are not modelled; Python
exceptions are modelled as none. -/
def mouse_scroll (s0 : ViewState) (delta ex ey : ℤ) : Option ViewState :=
  match lookupLvl s0 s0.c_level with
  | none => none
  | some e0 =>
    if 0 < delta then
      match s0.c_level with
      | Lvl.out =>
          rebuild_and_zoom
            { s0 with old_img := some e0.dims, c_level := lvlOfKey s0.p_level }
            s0.p_level
            (Frac.mul (Frac.ofInt e0.dims.1) ZOOM_FACTOR)
            (Frac.mul (Frac.ofInt e0.dims.2) ZOOM_FACTOR) ex ey
      | Lvl.nil => none
      | Lvl.i n =>
        if n < MAX_INZOOM_LEVEL then
          rebuild_and_zoom
            { s0 with old_img := some e0.dims, p_level := some n,
                      c_level := Lvl.i (n + 1) }
            (some (n + 1))
            (Frac.mul (Frac.ofInt e0.dims.1) ZOOM_FACTOR)
            (Frac.mul (Frac.ofInt e0.dims.2) ZOOM_FACTOR) ex ey
        else some { s0 with old_img := some e0.dims }
    else if delta < 0 then
      if (Frac.div (Frac.ofInt e0.dims.2) ZOOM_FACTOR).trunc ≤ s0.canvasH then
        zoom_at_cursor (outscroll_fit { s0 with old_img := some e0.dims }) ex ey
      else
        match s0.c_level with
        | Lvl.i n =>
          rebuild_and_zoom
            { s0 with old_img := some e0.dims, p_level := some n,
                      c_level := Lvl.i (n - 1) }
            (some (n - 1))
            (Frac.ofInt (Frac.div (Frac.ofInt e0.dims.1) ZOOM_FACTOR).trunc)
            (Frac.ofInt (Frac.div (Frac.ofInt e0.dims.2) ZOOM_FACTOR).trunc)
            ex ey
        | Lvl.nil => none
        | Lvl.out =>
          match outscroll_loop_start { s0 with old_img := some e0.dims }
              e0.dims.2 with
          | none => none
          | some lvl =>
            match outscroll_else { s0 with old_img := some e0.dims } lvl with
            | none => none
            | some s2 => zoom_at_cursor s2 ex ey
    else some { s0 with old_img := some e0.dims }

/-- One user interaction: a drag by a mouse delta, or a scroll event. -/
inductive Op where
  | drag (dx dy : ℤ)
  | scroll (delta ex ey : ℤ)

/-- Apply one interaction to the viewer state. -/
def step (s : ViewState) : Op → Option ViewState
  | Op.drag dx dy => drag_im s dx dy
  | Op.scroll d ex ey => mouse_scroll s d ex ey

/-- Apply a sequence of interactions; an interaction that raises aborts the
sequence. -/
def run (s : ViewState) : List Op → Option ViewState
  | [] => some s
  | o :: t =>
    match step s o with
    | none => none
    | some s1 => run s1 t

/-- The pan-offset invariant of the specification (section 3,
ViewportState): the current level is present and both offsets lie in
[0, max(0, level dimension - canvas dimension)]. -/
def OffsetInv (s : ViewState) : Prop :=
  ∃ e, lookupLvl s s.c_level = some e ∧
    0 ≤ s.offset_x ∧ s.offset_x ≤ max (e.dims.1 - s.canvasW) 0 ∧
    0 ≤ s.offset_y ∧ s.offset_y ≤ max (e.dims.2 - s.canvasH) 0

/-- The GUI constant STD_LOWER = 0 (gui.py line 21). -/
def STD_LOWER : ℕ := 0

/-- The GUI constant STD_UPPER = 65535 (gui.py line 22). -/
def STD_UPPER : ℕ := 65535

/-- ScrollableImage initialisation for a successfully loaded raster
(scrollableimage.py, the constructor together with _init_mdna and
_init_pyramid with PRE_COMP disabled): the session contrast is the (lower,
upper) passed by the caller, the loaded raster is windowed at it, level 0 of
the pyramid is that windowed image resized to the given display width, the
offsets are zero, and the previous level and old dimensions start as None.
The builds counter starts at zero: _init_pyramid stores level 0 directly,
not through add_to_pyramid. -/
def init_session (or_im : Raster) (width : Option Frac) (lower upper : ℕ)
    (cw ch : ℤ) : ViewState :=
  { pyramid := [(some 0,
      ⟨(resize_keeping_ratio (windowing or_im lower upper) width none).1,
       ((resize_keeping_ratio (windowing or_im lower upper) width none).2.1,
        (resize_keeping_ratio (windowing or_im lower upper) width none).2.2),
       (lower, upper)⟩)],
    outscroll := none,
    c_level := Lvl.i 0,
    p_level := none,
    offset_x := 0,
    offset_y := 0,
    contr := (lower, upper),
    or_im := or_im,
    orig_windowed_im := windowing or_im lower upper,
    canvasW := cw,
    canvasH := ch,
    old_img := none,
    builds := 0 }

/-- The session created by GUI.init_n_pack_im (gui.py lines 147 and 148)
for a successfully decoded raster: the contrast bounds passed to
ScrollableImage are the constants STD_LOWER and STD_UPPER. -/
def gui_init_image (or_im : Raster) (width : Frac) (cw ch : ℤ) : ViewState :=
  init_session or_im (some width) STD_LOWER STD_UPPER cw ch

/-- All samples of a raster in one list, rows concatenated. -/
def pixList (r : Raster) : List ℕ :=
  ((List.range r.h).map (fun y => (List.range r.w).map (fun x => r.pix x y))).flatten

/-- np.min over a raster, as used by MDNA._std_contrast and named by the
specification as the default lower contrast bound; np.min of an empty array
raises, the empty case here is inert. -/
def rasterMin (r : Raster) : ℕ :=
  match pixList r with
  | [] => 0
  | a :: t => t.foldl min a

/-- np.max over a raster, the counterpart of rasterMin. -/
def rasterMax (r : Raster) : ℕ :=
  match pixList r with
  | [] => 0
  | a :: t => t.foldl max a

/-- The GUI state relevant to loading: the per-channel session references
gim and rim, the image panes actually displayed in the left and right
frames, the im_loaded flag, and a count of error dialogs shown.  Pane and
session payloads are the loaded three-channel rasters. -/
structure GuiState where
  gim : Option Raster3
  rim : Option Raster3
  left_pane : Option Raster3
  right_pane : Option Raster3
  im_loaded : Bool
  dialogs : ℕ

/-- Construction of a ScrollableImage from a decode result, reduced to its
outcome: when cv2.imread returned None, _im_load returns None and the dead
check (if self.mdna is None) in _init_mdna does not fire, because the MDNA
constructor always returns an object; the failure instead surfaces as a
TypeError when MDNA.windowing applies np.clip to None
(scrollableimage.py lines 158 to 164). -/
def scrollable_image_new (imread_result : Option Raster) (channel : ℕ) :
    Except PyErr Raster3 :=
  match im_load imread_result channel with
  | none => Except.error PyErr.typeErr
  | some im3 => Except.ok im3

/-- GUI.init_n_pack_im (gui.py lines 131 to 161): destroy the widgets of
the target frame, construct a ScrollableImage there; on an exception,
delete and recreate both frames, clear im_loaded, show an error dialog, and
then fall through to the setattr on the unbound local image_window, which
raises UnboundLocalError (modelled as the error result, carrying the
mutated GUI state); on success record the session on gim or rim, pack the
pane and set im_loaded. -/
def init_n_pack_im (g : GuiState) (imread_result : Option Raster)
    (channel : ℕ) : Except GuiState GuiState :=
  match scrollable_image_new imread_result channel with
  | Except.error _ =>
    Except.error { g with left_pane := none, right_pane := none,
                          im_loaded := false, dialogs := g.dialogs + 1 }
  | Except.ok im3 =>
    if channel = 1 then
      Except.ok { g with gim := some im3, left_pane := some im3,
                         im_loaded := true }
    else
      Except.ok { g with rim := some im3, right_pane := some im3,
                         im_loaded := true }

/-- GUI.load_n_disp (gui.py lines 163 to 178): load the green channel into
the left frame, then the red channel into the right frame; an exception in
either propagates. -/
def load_n_disp (g : GuiState) (gdec rdec : Option Raster) :
    Except GuiState GuiState :=
  match init_n_pack_im g gdec 1 with
  | Except.error g1 => Except.error g1
  | Except.ok g1 =>
    match init_n_pack_im g1 rdec 2 with
    | Except.error g2 => Except.error g2
    | Except.ok g2 => Except.ok g2

/-- GUI.clear_all (gui.py lines 543 to 559), restricted to the modelled
fields: the session references are dropped. -/
def clear_all (g : GuiState) : GuiState := { g with gim := none, rim := none }

/-- GUI.choose_file_and_disp (gui.py lines 517 to 541) after two files were
chosen, with the decode results of the two paths as inputs: clear_all runs
and the frames are destroyed and recreated before any load is attempted;
an exception escaping load_n_disp is caught and shown as one more error
dialog. -/
def choose_file_and_disp (g : GuiState) (gdec rdec : Option Raster) :
    GuiState :=
  match load_n_disp { clear_all g with left_pane := none, right_pane := none }
      gdec rdec with
  | Except.ok g2 => g2
  | Except.error g2 => { g2 with dialogs := g2.dialogs + 1 }

/-- State of the contrast-recomputation scheduler of one session: the
contrast windows being computed by currently live worker threads (started
by confirm_windowing), and the windows already applied, in order. -/
structure SchedState where
  flight : List (ℕ × ℕ)
  applied : List (ℕ × ℕ)

/-- Events serialised on the Tk main loop: a debounced timer firing
confirm_windowing with a requested window, or a worker thread finishing and
its result being applied via root.after. -/
inductive SchedEvent where
  | request (c : ℕ × ℕ)
  | finish

/-- GUI.confirm_windowing (gui.py lines 580 to 588) and completion: a
request finding a live computation thread returns at once, discarding the
request; otherwise it starts one thread for the requested window.  A finish
event retires the thread and records its window as applied. -/
def sched_step (s : SchedState) : SchedEvent → SchedState
  | SchedEvent.request c =>
    if s.flight.isEmpty then { s with flight := [c] } else s
  | SchedEvent.finish =>
    match s.flight with
    | [] => s
    | c :: rest => { flight := rest, applied := s.applied ++ [c] }

/-- Apply a serialised event sequence to the scheduler. -/
def sched_run (s : SchedState) : List SchedEvent → SchedState
  | [] => s
  | e :: t => sched_run (sched_step s e) t

/-- The scheduler state of a fresh session: no thread, nothing applied. -/
def sched_init : SchedState := ⟨[], []⟩

/-- A default entry, used only to give getD a value in witness statements. -/
def dummyEntry : Entry := ⟨⟨0, 0, fun _ _ => 0⟩, (0, 0), (0, 0)⟩

/-- Witness input for the cache-coherence claim: a 4 by 4 raster. -/
def cwRaster : Raster := ⟨4, 4, fun _ _ => 9⟩

/-- Witness input: a level-0 entry built at the stale contrast (1, 2). -/
def cwEntry : Entry := ⟨cwRaster, (4, 4), (1, 2)⟩

/-- Witness input: a session whose contrast has moved to (3, 5) while level
0 still carries the entry built at (1, 2). -/
def cwState : ViewState :=
  { pyramid := [(some 0, cwEntry)],
    outscroll := none,
    c_level := Lvl.i 0,
    p_level := none,
    offset_x := 0,
    offset_y := 0,
    contr := (3, 5),
    or_im := cwRaster,
    orig_windowed_im := windowing cwRaster 3 5,
    canvasW := 2,
    canvasH := 2,
    old_img := none,
    builds := 0 }

/-- Witness input for the pan and zoom claims: a 40 by 40 windowed image. -/
def panRaster : Raster := ⟨40, 40, fun _ _ => 0⟩

/-- Witness input: the level-0 entry of panState. -/
def panEntry : Entry := ⟨panRaster, (40, 40), (0, 65535)⟩

/-- Witness input: a coherent session on a 10 by 10 canvas at level 0. -/
def panState : ViewState :=
  { pyramid := [(some 0, panEntry)],
    outscroll := none,
    c_level := Lvl.i 0,
    p_level := none,
    offset_x := 0,
    offset_y := 0,
    contr := (0, 65535),
    or_im := panRaster,
    orig_windowed_im := panRaster,
    canvasW := 10,
    canvasH := 10,
    old_img := none,
    builds := 0 }

/-- The state after one zoom-in from panState, used by the round-trip
witness. -/
def zoomS1 : ViewState := (mouse_scroll panState 1 0 0).getD panState

/-- The entry at the current level of zoomS1. -/
def zoomE1 : Entry := (lookupLvl zoomS1 zoomS1.c_level).getD dummyEntry

/-- A one-pixel raster holding the sample 1, for the windowing
counterexample. -/
def onePix : Raster := ⟨1, 1, fun _ _ => 1⟩

/-- The 4000 by 3000 constant raster of the initial-load scenario. -/
def r4000 : Raster := ⟨4000, 3000, fun _ _ => 7⟩

/-- A 100 by 100 green input for the compositor claims. -/
def g100 : Raster3 := ⟨100, 100, fun _ _ => (0, 5, 0)⟩

/-- A 100 by 99 red input, mismatching g100 by one row. -/
def r99 : Raster3 := ⟨100, 99, fun _ _ => (6, 0, 0)⟩

/-- A 4 by 4 green input for the matching-dimension compositor case. -/
def g4 : Raster3 := ⟨4, 4, fun _ _ => (0, 7, 0)⟩

/-- A 4 by 4 red input for the matching-dimension compositor case. -/
def r4 : Raster3 := ⟨4, 4, fun _ _ => (8, 0, 0)⟩

/-- A previously loaded image displayed before a failing reload. -/
def priorIm3 : Raster3 := ⟨2, 2, fun _ _ => (1, 2, 3)⟩

/-- A GUI state with both channels loaded and displayed. -/
def priorGui : GuiState :=
  ⟨some priorIm3, some priorIm3, some priorIm3, some priorIm3, true, 0⟩

/-- A decodable raster for the red path of the load counterexample. -/
def okRaster : Raster := ⟨2, 2, fun _ _ => 5⟩

theorem lower_le_clip (s lower upper : ℕ) (h : lower ≤ upper) :
    lower ≤ clip s lower upper :=
  le_min (le_max_right s lower) h

theorem clip_mono (lower upper : ℕ) {s t : ℕ} (h : s ≤ t) :
    clip s lower upper ≤ clip t lower upper :=
  min_le_min (max_le_max h le_rfl) le_rfl

theorem foldl_min_const (l : List ℕ) (a : ℕ) (h : ∀ x ∈ l, x = a) :
    l.foldl min a = a := by
  induction l with
  | nil => rfl
  | cons b t ih =>
    have hb : b = a := h b (by simp)
    rw [List.foldl_cons, hb, min_self]
    exact ih (fun x hx => h x (by simp [hx]))

theorem foldl_max_const (l : List ℕ) (a : ℕ) (h : ∀ x ∈ l, x = a) :
    l.foldl max a = a := by
  induction l with
  | nil => rfl
  | cons b t ih =>
    have hb : b = a := h b (by simp)
    rw [List.foldl_cons, hb, max_self]
    exact ih (fun x hx => h x (by simp [hx]))

theorem mem_pixList_const (r : Raster) (v : ℕ) (hv : ∀ x y, r.pix x y = v) :
    ∀ u ∈ pixList r, u = v := by
  intro u hu
  unfold pixList at hu
  rw [List.mem_flatten] at hu
  obtain ⟨l, hl, hul⟩ := hu
  rw [List.mem_map] at hl
  obtain ⟨y, _, rfl⟩ := hl
  rw [List.mem_map] at hul
  obtain ⟨x, _, rfl⟩ := hul
  exact hv x y

theorem pixList_length (r : Raster) : (pixList r).length = r.h * r.w := by
  unfold pixList
  rw [List.length_flatten, List.map_map]
  have h1 : (List.length ∘ fun y => (List.range r.w).map (fun x => r.pix x y))
      = fun _ => r.w := by
    funext y
    simp
  rw [h1]
  have h2 : ∀ n : ℕ, ((List.range n).map (fun _ => r.w)).sum = n * r.w := by
    intro n
    induction n with
    | zero => simp
    | succ k ih =>
      rw [List.range_succ, List.map_append, List.sum_append, ih]
      simp [Nat.succ_mul]
  exact h2 r.h

theorem rasterMin_const (r : Raster) (v : ℕ) (hv : ∀ x y, r.pix x y = v)
    (hw : r.w ≠ 0) (hh : r.h ≠ 0) : rasterMin r = v := by
  unfold rasterMin
  cases hp : pixList r with
  | nil =>
    exfalso
    have := pixList_length r
    rw [hp] at this
    simp at this
    rcases this with h | h
    · exact hh h
    · exact hw h
  | cons a t =>
    have hmem := mem_pixList_const r v hv
    rw [hp] at hmem
    have ha : a = v := hmem a (by simp)
    rw [ha]
    exact foldl_min_const t v (fun x hx => hmem x (by simp [hx]))

theorem rasterMax_const (r : Raster) (v : ℕ) (hv : ∀ x y, r.pix x y = v)
    (hw : r.w ≠ 0) (hh : r.h ≠ 0) : rasterMax r = v := by
  unfold rasterMax
  cases hp : pixList r with
  | nil =>
    exfalso
    have := pixList_length r
    rw [hp] at this
    simp at this
    rcases this with h | h
    · exact hh h
    · exact hw h
  | cons a t =>
    have hmem := mem_pixList_const r v hv
    rw [hp] at hmem
    have ha : a = v := hmem a (by simp)
    rw [ha]
    exact foldl_max_const t v (fun x hx => hmem x (by simp [hx]))

/-- Claim C2: for every 16-bit raster and every pair of bounds with
upper = lower, MDNA.windowing returns an all-zero raster of the dimensions
of the input; the degenerate window is a defined outcome of the evaluation
(numpy emits a warning and the NaN maps to 0 at the uint8 cast), not a
crash. -/
theorem windowing_degenerate (cy : Raster) (b : ℕ) :
    (windowing cy b b).w = cy.w ∧ (windowing cy b b).h = cy.h ∧
    ∀ x y, (windowing cy b b).pix x y = 0 := by
  refine ⟨rfl, rfl, fun x y => ?_⟩
  simp [windowing, windowPix, Nat.sub_self]

/-- Counterexample to claim C3 as stated: at sample 1 with window (0, 2)
the code computes 255/2 truncated to 127 (astype(np.uint8) truncates), while
the round formula of the specification gives 128. -/
theorem windowing_truncates_not_rounds :
    (windowing onePix 0 2).pix 0 0 = 127 ∧
    windowPixSpec 1 0 2 = 128 ∧
    ((windowing onePix 0 2).pix 0 0 : ℤ) ≠ windowPixSpec 1 0 2 := by
  have h1 : (windowing onePix 0 2).pix 0 0 = 127 := by decide
  have hc : clip 1 0 2 = 1 := by decide
  have h2 : windowPixSpec 1 0 2 = 128 := by
    rw [windowPixSpec, hc]
    have h3 : (((1 : ℕ) : ℚ) - ((0 : ℕ) : ℚ)) / (((2 : ℕ) : ℚ) - ((0 : ℕ) : ℚ)) * 255
        = 255 / 2 := by
      norm_num
    rw [h3, round_eq]
    have h4 : (255 / 2 + 1 / 2 : ℚ) = ((128 : ℤ) : ℚ) := by norm_num
    rw [h4, Int.floor_intCast]
  refine ⟨h1, h2, ?_⟩
  rw [h1, h2]
  decide

/-- Claim C3 (amended): for lower < upper, MDNA.windowing maps each sample
s to the truncation (not the rounding) of
(clip(s, lower, upper) - lower) / (upper - lower) * 255; the output is 0
for s at most lower, 255 for s at least upper, and monotonically
non-decreasing in s. -/
theorem windowing_formula_monotone (cy : Raster) (lower upper : ℕ)
    (hlt : lower < upper) :
    (∀ x y, (windowing cy lower upper).pix x y
        = ⌊((clip (cy.pix x y) lower upper : ℚ) - (lower : ℚ))
            / ((upper : ℚ) - (lower : ℚ)) * 255⌋₊) ∧
    (∀ x y, cy.pix x y ≤ lower → (windowing cy lower upper).pix x y = 0) ∧
    (∀ x y, upper ≤ cy.pix x y → (windowing cy lower upper).pix x y = 255) ∧
    (∀ s t, s ≤ t → windowPix s lower upper ≤ windowPix t lower upper) := by
  refine ⟨fun x y => ?_, fun x y hs => ?_, fun x y hs => ?_, fun s t hst => ?_⟩
  · show windowPix (cy.pix x y) lower upper = _
    have hcl : lower ≤ clip (cy.pix x y) lower upper :=
      lower_le_clip _ _ _ hlt.le
    rw [← Nat.cast_sub hcl, ← Nat.cast_sub hlt.le, div_mul_eq_mul_div]
    have hcast : ((clip (cy.pix x y) lower upper - lower : ℕ) : ℚ) * 255
        = (((clip (cy.pix x y) lower upper - lower) * 255 : ℕ) : ℚ) := by
      push_cast
      ring
    rw [hcast, Nat.floor_div_nat, Nat.floor_natCast]
    rfl
  · show windowPix (cy.pix x y) lower upper = 0
    unfold windowPix clip
    rw [max_eq_right hs, min_eq_left hlt.le]
    simp
  · show windowPix (cy.pix x y) lower upper = 255
    unfold windowPix clip
    rw [max_eq_left (le_trans hlt.le hs), min_eq_right hs]
    exact Nat.mul_div_cancel_left 255 (Nat.sub_pos_of_lt hlt)
  · unfold windowPix
    exact Nat.div_le_div_right
      (Nat.mul_le_mul (Nat.sub_le_sub_right (clip_mono lower upper hst) lower)
        le_rfl)

/-- Witness for the amended windowing claim at window (0, 2) on the
one-pixel raster holding 1. -/
theorem windowing_formula_monotone_witness :
    windowPix 1 0 2 ≤ windowPix 2 0 2 ∧
    (windowing onePix 0 2).pix 0 0
      = ⌊((clip (onePix.pix 0 0) 0 2 : ℚ) - ((0 : ℕ) : ℚ))
          / (((2 : ℕ) : ℚ) - ((0 : ℕ) : ℚ)) * 255⌋₊ :=
  ⟨(windowing_formula_monotone onePix 0 2 (by decide)).2.2.2 1 2 (by decide),
   (windowing_formula_monotone onePix 0 2 (by decide)).1 0 0⟩

/-- Claim C7: composing two three-channel rasters whose width or height
differ raises the dimension-mismatch error of cv2.merge and never returns a
composite; with identical dimensions the composite holds channel 0 of the
red input, channel 1 of the green input, and zero in channel 2. -/
theorem compose_dimension_check (g r : Raster3) :
    (¬ (g.w = r.w ∧ g.h = r.h) →
      get_combined_image g r = Except.error PyErr.dimensionMismatch) ∧
    (g.w = r.w → g.h = r.h →
      get_combined_image g r = Except.ok
        ⟨r.w, r.h, fun x y => ((chan r 0).pix x y, (chan g 1).pix x y, 0)⟩) := by
  constructor
  · intro hne
    unfold get_combined_image merge3
    rw [if_neg]
    intro hc
    exact hne ⟨hc.1.symm, hc.2.1.symm⟩
  · intro h1 h2
    unfold get_combined_image merge3
    rw [if_pos ⟨h1.symm, h2.symm, h1.symm, h2.symm⟩]
    rfl

/-- Witness for the compositor claim: the 100 by 100 and 100 by 99 pair of
the specification scenario raises, and a matching 4 by 4 pair composes. -/
theorem compose_dimension_check_witness :
    get_combined_image g100 r99 = Except.error PyErr.dimensionMismatch ∧
    get_combined_image g4 r4 = Except.ok
      ⟨r4.w, r4.h, fun x y => ((chan r4 0).pix x y, (chan g4 1).pix x y, 0)⟩ :=
  ⟨(compose_dimension_check g100 r99).1 (by decide),
   (compose_dimension_check g4 r4).2 rfl rfl⟩

/-- Claim C10: resize_keeping_ratio with both a target width and a target
height supplied equals resize_keeping_ratio with the width alone (the
height argument is ignored and the output height is derived from the
aspect ratio), and with neither supplied the image and its dimensions are
returned unchanged. -/
theorem resize_ignores_height_when_width_given (image : Raster) (w h : Frac) :
    resize_keeping_ratio image (some w) (some h)
      = resize_keeping_ratio image (some w) none ∧
    resize_keeping_ratio image none none
      = (image, (image.w : ℤ), (image.h : ℤ)) :=
  ⟨rfl, rfl⟩

theorem gui_init_image_dims (or_im : Raster) (width : Frac) (cw ch : ℤ) :
    (lookupKey (gui_init_image or_im width cw ch).pyramid (some 0)).map
        Entry.dims
      = some (width.trunc,
          Int.tdiv ((or_im.h : ℤ) * width.trunc) (or_im.w : ℤ)) := rfl

/-- Claim C5 (amended): loading a 4000 by 3000 16-bit raster into a pane of
display width 1000 produces an initial level-0 pyramid raster of dimensions
1000 by 750; the session contrast window defaults to the constants
(STD_LOWER, STD_UPPER) = (0, 65535), not to the minimum and maximum sample
of the raster. -/
theorem initial_load_postcondition (pix : ℕ → ℕ → ℕ) (cw ch : ℤ) :
    (lookupKey (gui_init_image ⟨4000, 3000, pix⟩ (Frac.ofInt 1000) cw ch).pyramid
        (some 0)).map Entry.dims = some ((1000 : ℤ), (750 : ℤ)) ∧
    (gui_init_image ⟨4000, 3000, pix⟩ (Frac.ofInt 1000) cw ch).contr
      = (0, 65535) := by
  refine ⟨?_, rfl⟩
  rw [gui_init_image_dims]
  show some ((Frac.ofInt 1000).trunc,
      Int.tdiv ((3000 : ℤ) * (Frac.ofInt 1000).trunc) (4000 : ℤ))
    = some ((1000 : ℤ), (750 : ℤ))
  decide

/-- Counterexample to claim C5 as stated: on a constant raster whose sample
minimum and maximum are both 7, the initial contrast window is the constant
pair (0, 65535), not (min, max) = (7, 7). -/
theorem initial_load_contrast_counterexample :
    (gui_init_image r4000 (Frac.ofInt 1000) 1000 800).contr = (0, 65535) ∧
    rasterMin r4000 = 7 ∧ rasterMax r4000 = 7 ∧
    (gui_init_image r4000 (Frac.ofInt 1000) 1000 800).contr
      ≠ (rasterMin r4000, rasterMax r4000) := by
  have hmin : rasterMin r4000 = 7 :=
    rasterMin_const r4000 7 (fun _ _ => rfl) (by decide) (by decide)
  have hmax : rasterMax r4000 = 7 :=
    rasterMax_const r4000 7 (fun _ _ => rfl) (by decide) (by decide)
  refine ⟨rfl, hmin, hmax, ?_⟩
  rw [hmin, hmax]
  decide

theorem sched_step_len (s : SchedState) (e : SchedEvent)
    (h : s.flight.length ≤ 1) : (sched_step s e).flight.length ≤ 1 := by
  cases e with
  | request c =>
    simp only [sched_step]
    by_cases he : s.flight.isEmpty
    · simp [he]
    · simp only [he, if_false]
      exact h
  | finish =>
    simp only [sched_step]
    cases hf : s.flight with
    | nil => exact h
    | cons c rest =>
      rw [hf] at h
      simp only [List.length_cons] at h
      show rest.length ≤ 1
      omega

theorem sched_run_len (evs : List SchedEvent) (s : SchedState)
    (h : s.flight.length ≤ 1) : (sched_run s evs).flight.length ≤ 1 := by
  induction evs generalizing s with
  | nil => exact h
  | cons e t ih => exact ih (sched_step s e) (sched_step_len s e h)

/-- Claim C9 (amended): starting from a fresh session, at most one contrast
recomputation thread is live after any serialised sequence of request and
finish events; but a request arriving while one is in flight is discarded by
confirm_windowing, not queued (see the counterexample theorem). -/
theorem contrast_single_flight (evs : List SchedEvent) :
    (sched_run sched_init evs).flight.length ≤ 1 :=
  sched_run_len evs sched_init (by decide)

/-- Counterexample to claim C9 as stated: a request for window (5, 50)
arriving while the computation for (0, 100) is in flight is neither applied
after the in-flight one finishes nor left pending; it is lost. -/
theorem contrast_request_dropped :
    (sched_run sched_init
        [SchedEvent.request (0, 100), SchedEvent.request (5, 50),
         SchedEvent.finish]).applied = [(0, 100)] ∧
    (sched_run sched_init
        [SchedEvent.request (0, 100), SchedEvent.request (5, 50),
         SchedEvent.finish]).flight = [] ∧
    (5, 50) ∉ (sched_run sched_init
        [SchedEvent.request (0, 100), SchedEvent.request (5, 50),
         SchedEvent.finish]).applied := by
  refine ⟨rfl, rfl, ?_⟩
  decide

/-- Claim C8 (amended): when decoding fails for either channel, errors are
surfaced to the user as dialogs, but the session state is not left
unmodified: the prior session references and both display panes are cleared
before and during the failed load, so no prior image remains displayed and
im_loaded is false. -/
theorem load_error_clears_display (g : GuiState) (gdec rdec : Option Raster)
    (hfail : gdec = none ∨ rdec = none) :
    (choose_file_and_disp g gdec rdec).left_pane = none ∧
    (choose_file_and_disp g gdec rdec).right_pane = none ∧
    (choose_file_and_disp g gdec rdec).im_loaded = false ∧
    (choose_file_and_disp g gdec rdec).dialogs = g.dialogs + 2 := by
  rcases hfail with h | h
  · subst h
    cases rdec with
    | none => exact ⟨rfl, rfl, rfl, rfl⟩
    | some r => exact ⟨rfl, rfl, rfl, rfl⟩
  · subst h
    cases gdec with
    | none => exact ⟨rfl, rfl, rfl, rfl⟩
    | some r => exact ⟨rfl, rfl, rfl, rfl⟩

/-- Witness for the amended load-failure claim at a concrete GUI state
with a prior image and a failing green decode. -/
theorem load_error_clears_display_witness :
    (choose_file_and_disp priorGui none (some okRaster)).left_pane = none ∧
    (choose_file_and_disp priorGui none (some okRaster)).right_pane = none ∧
    (choose_file_and_disp priorGui none (some okRaster)).im_loaded = false ∧
    (choose_file_and_disp priorGui none (some okRaster)).dialogs
      = priorGui.dialogs + 2 :=
  load_error_clears_display priorGui none (some okRaster) (Or.inl rfl)

/-- Counterexample to claim C8 as stated: a session with a prior image
displayed loses it on a failing load; the prior image does not stay
displayed. -/
theorem load_error_drops_prior_image :
    priorGui.gim.isSome = true ∧ priorGui.left_pane.isSome = true ∧
    (choose_file_and_disp priorGui none (some okRaster)).gim = none ∧
    (choose_file_and_disp priorGui none (some okRaster)).left_pane = none :=
  ⟨rfl, rfl, rfl, rfl⟩

theorem lookupKey_setKey_self (py : List (PKey × Entry)) (k : PKey)
    (e : Entry) : lookupKey (setKey py k e) k = some e := by
  unfold setKey lookupKey
  rw [if_pos rfl]

theorem lookupKey_filter_ne (py : List (PKey × Entry)) (k k2 : PKey)
    (h : k2 ≠ k) :
    lookupKey (py.filter (fun kv => kv.1 ≠ k)) k2 = lookupKey py k2 := by
  induction py with
  | nil => rfl
  | cons kv t ih =>
    rcases kv with ⟨k3, e3⟩
    by_cases hk : k3 = k
    · rw [List.filter_cons]
      have hd : (decide ((k3, e3).1 ≠ k)) = false := by simp [hk]
      rw [hd]
      simp only [Bool.false_eq_true, if_false]
      rw [ih]
      show lookupKey t k2 = if k3 = k2 then some e3 else lookupKey t k2
      rw [if_neg (by rw [hk]; exact fun hh => h hh.symm)]
    · rw [List.filter_cons]
      have hd : (decide ((k3, e3).1 ≠ k)) = true := by simp [hk]
      rw [hd]
      simp only [if_true]
      show (if k3 = k2 then some e3 else lookupKey (t.filter _) k2)
          = if k3 = k2 then some e3 else lookupKey t k2
      by_cases hk2 : k3 = k2
      · rw [if_pos hk2, if_pos hk2]
      · rw [if_neg hk2, if_neg hk2, ih]

theorem lookupKey_setKey_ne (py : List (PKey × Entry)) (k k2 : PKey)
    (e : Entry) (h : k2 ≠ k) :
    lookupKey (setKey py k e) k2 = lookupKey py k2 := by
  unfold setKey
  show (if k = k2 then some e else lookupKey (py.filter _) k2)
      = lookupKey py k2
  rw [if_neg (fun hh => h hh.symm), lookupKey_filter_ne py k k2 h]

/-- Claim C1: pyramid cache coherence.  With a stale entry at a level (its
stored contrast differs from the session contrast, the session windowed
image being the source windowed at the session contrast), get_or_build
recomputes via the resize operator applied to the windowed image, increments
the build counter, and stores the new entry tagged with the session
contrast; an immediately repeated request at the unchanged contrast then
returns the identical cached entry with no recomputation and no state
change. -/
theorem pyramid_cache_coherence (s : ViewState) (level : PKey)
    (w h w2 h2 : Frac) (e : Entry)
    (hlook : lookupKey s.pyramid level = some e)
    (hstale : e.contr ≠ s.contr)
    (hwin : s.orig_windowed_im = windowing s.or_im s.contr.1 s.contr.2) :
    (get_or_build s level w h).1.builds = s.builds + 1 ∧
    (get_or_build s level w h).2 = some
      ⟨(resize_keeping_ratio (windowing s.or_im s.contr.1 s.contr.2)
          (some w) (some h)).1,
       ((resize_keeping_ratio (windowing s.or_im s.contr.1 s.contr.2)
           (some w) (some h)).2.1,
        (resize_keeping_ratio (windowing s.or_im s.contr.1 s.contr.2)
           (some w) (some h)).2.2),
       s.contr⟩ ∧
    get_or_build (get_or_build s level w h).1 level w2 h2
      = get_or_build s level w h := by
  have hreb : needs_rebuild s level = true := by
    unfold needs_rebuild
    rw [hlook]
    simp [hstale]
  have hE : lookupKey (add_to_pyramid s level s.orig_windowed_im w h).pyramid
      level = some
      ⟨(resize_keeping_ratio s.orig_windowed_im (some w) (some h)).1,
       ((resize_keeping_ratio s.orig_windowed_im (some w) (some h)).2.1,
        (resize_keeping_ratio s.orig_windowed_im (some w) (some h)).2.2),
       s.contr⟩ := by
    unfold add_to_pyramid
    exact lookupKey_setKey_self _ _ _
  have hreb2 : needs_rebuild (add_to_pyramid s level s.orig_windowed_im w h)
      level = false := by
    unfold needs_rebuild
    rw [hE]
    simp [add_to_pyramid]
  have hfst : get_or_build s level w h
      = (add_to_pyramid s level s.orig_windowed_im w h,
         lookupKey (add_to_pyramid s level s.orig_windowed_im w h).pyramid
           level) := by
    unfold get_or_build
    rw [hreb]
    simp
  refine ⟨?_, ?_, ?_⟩
  · rw [hfst]
    simp [add_to_pyramid]
  · rw [hfst]
    show lookupKey (add_to_pyramid s level s.orig_windowed_im w h).pyramid
        level = _
    rw [hE, hwin]
  · rw [hfst]
    show get_or_build (add_to_pyramid s level s.orig_windowed_im w h) level
        w2 h2 = _
    unfold get_or_build
    rw [hreb2]
    simp

/-- Witness for cache coherence: a session at contrast (3, 5) holding a
level-0 entry built at (1, 2). -/
theorem pyramid_cache_coherence_witness :
    (get_or_build cwState (some 0) (Frac.ofInt 4) (Frac.ofInt 4)).1.builds
      = cwState.builds + 1 ∧
    (get_or_build cwState (some 0) (Frac.ofInt 4) (Frac.ofInt 4)).2 = some
      ⟨(resize_keeping_ratio (windowing cwState.or_im cwState.contr.1
            cwState.contr.2) (some (Frac.ofInt 4)) (some (Frac.ofInt 4))).1,
       ((resize_keeping_ratio (windowing cwState.or_im cwState.contr.1
             cwState.contr.2) (some (Frac.ofInt 4)) (some (Frac.ofInt 4))).2.1,
        (resize_keeping_ratio (windowing cwState.or_im cwState.contr.1
             cwState.contr.2) (some (Frac.ofInt 4)) (some (Frac.ofInt 4))).2.2),
       cwState.contr⟩ ∧
    get_or_build (get_or_build cwState (some 0) (Frac.ofInt 4)
        (Frac.ofInt 4)).1 (some 0) (Frac.ofInt 2) (Frac.ofInt 2)
      = get_or_build cwState (some 0) (Frac.ofInt 4) (Frac.ofInt 4) :=
  pyramid_cache_coherence cwState (some 0) (Frac.ofInt 4) (Frac.ofInt 4)
    (Frac.ofInt 2) (Frac.ofInt 2) cwEntry rfl (by decide) rfl

theorem clampOffset_nonneg (v b : ℤ) : 0 ≤ clampOffset v b :=
  le_max_left 0 _

theorem clampOffset_le (v b : ℤ) (hb : 0 ≤ b) : clampOffset v b ≤ b :=
  max_le hb (min_le_right v b)

theorem lookupLvl_congr (s2 s : ViewState) (hpy : s2.pyramid = s.pyramid)
    (hout : s2.outscroll = s.outscroll) (l : Lvl) :
    lookupLvl s2 l = lookupLvl s l := by
  cases l <;> simp [lookupLvl, hpy, hout]

theorem offsetInv_old (s : ViewState) (v : Option (ℤ × ℤ))
    (hinv : OffsetInv s) : OffsetInv { s with old_img := v } := by
  obtain ⟨e, h1, h2, h3, h4, h5⟩ := hinv
  refine ⟨e, ?_, h2, h3, h4, h5⟩
  exact (lookupLvl_congr { s with old_img := v } s rfl rfl s.c_level).trans h1

theorem zoom_image_inv (s : ViewState) (mx my cmx cmy : ℤ) (s2 : ViewState)
    (h : zoom_image s mx my cmx cmy = some s2) : OffsetInv s2 := by
  unfold zoom_image at h
  split at h
  · rename_i e old heq1 heq2
    have hs2 := Option.some.inj h
    rw [← hs2]
    refine ⟨e, ?_, clampOffset_nonneg _ _,
      clampOffset_le _ _ (le_max_right _ _), clampOffset_nonneg _ _,
      clampOffset_le _ _ (le_max_right _ _)⟩
    exact (lookupLvl_congr _ s rfl rfl s.c_level).trans heq1
  · exact absurd h (by simp)

theorem zoom_at_cursor_inv (s : ViewState) (ex ey : ℤ) (s2 : ViewState)
    (h : zoom_at_cursor s ex ey = some s2) : OffsetInv s2 :=
  zoom_image_inv s _ _ _ _ s2 h

theorem rebuild_and_zoom_inv (s : ViewState) (key : PKey) (tw th : Frac)
    (ex ey : ℤ) (s2 : ViewState)
    (h : rebuild_and_zoom s key tw th ex ey = some s2) : OffsetInv s2 :=
  zoom_at_cursor_inv _ _ _ _ h

theorem drag_im_inv (s : ViewState) (dx dy : ℤ) (s2 : ViewState)
    (h : drag_im s dx dy = some s2) : OffsetInv s2 := by
  unfold drag_im at h
  split at h
  · exact absurd h (by simp)
  · rename_i e heq
    have hs2 := Option.some.inj h
    rw [← hs2]
    refine ⟨e, ?_, clampOffset_nonneg _ _,
      clampOffset_le _ _ (le_max_right _ _), clampOffset_nonneg _ _,
      clampOffset_le _ _ (le_max_right _ _)⟩
    exact (lookupLvl_congr _ s rfl rfl s.c_level).trans heq

theorem mouse_scroll_inv (s : ViewState) (d ex ey : ℤ) (s2 : ViewState)
    (hinv : OffsetInv s) (h : mouse_scroll s d ex ey = some s2) :
    OffsetInv s2 := by
  unfold mouse_scroll at h
  split at h
  · exact absurd h (by simp)
  · rename_i e0 heq0
    by_cases hd : 0 < d
    · rw [if_pos hd] at h
      split at h
      · exact rebuild_and_zoom_inv _ _ _ _ _ _ _ h
      · exact absurd h (by simp)
      · rename_i n heqc
        by_cases hn : n < MAX_INZOOM_LEVEL
        · rw [if_pos hn] at h
          exact rebuild_and_zoom_inv _ _ _ _ _ _ _ h
        · rw [if_neg hn] at h
          have hs2 := Option.some.inj h
          rw [← hs2]
          exact offsetInv_old s _ hinv
    · rw [if_neg hd] at h
      by_cases hd2 : d < 0
      · rw [if_pos hd2] at h
        by_cases hfit :
            (Frac.div (Frac.ofInt e0.dims.2) ZOOM_FACTOR).trunc ≤ s.canvasH
        · rw [if_pos hfit] at h
          exact zoom_at_cursor_inv _ _ _ _ h
        · rw [if_neg hfit] at h
          split at h
          · exact rebuild_and_zoom_inv _ _ _ _ _ _ _ h
          · exact absurd h (by simp)
          · split at h
            · exact absurd h (by simp)
            · split at h
              · exact absurd h (by simp)
              · exact zoom_at_cursor_inv _ _ _ _ h
      · rw [if_neg hd2] at h
        have hs2 := Option.some.inj h
        rw [← hs2]
        exact offsetInv_old s _ hinv

theorem step_inv (s : ViewState) (o : Op) (s2 : ViewState)
    (hinv : OffsetInv s) (h : step s o = some s2) : OffsetInv s2 := by
  cases o with
  | drag dx dy => exact drag_im_inv s dx dy s2 h
  | scroll d ex ey => exact mouse_scroll_inv s d ex ey s2 hinv h

/-- Claim C4: pan-offset clamping invariant.  From any viewport state
satisfying the offset invariant, any sequence of drag deltas and scroll
(zoom) events that completes leaves the pan offsets within
[0, max(0, level dimension - canvas dimension)] with respect to the current
level of the resulting state. -/
theorem pan_offset_clamped (ops : List Op) (s s2 : ViewState)
    (hinv : OffsetInv s) (hrun : run s ops = some s2) : OffsetInv s2 := by
  induction ops generalizing s with
  | nil =>
    have hs := Option.some.inj hrun
    rw [← hs]
    exact hinv
  | cons o t ih =>
    unfold run at hrun
    split at hrun
    · exact absurd hrun (by simp)
    · rename_i s1 hstep
      exact ih s1 (step_inv s o s1 hinv hstep) hrun

/-- Witness for the pan-offset invariant: one drag applied to a coherent
level-0 session on a 10 by 10 canvas. -/
theorem pan_offset_clamped_witness :
    OffsetInv ((run panState [Op.drag 5 3]).getD panState) := by
  have hinv : OffsetInv panState :=
    ⟨panEntry, rfl, by decide, by decide, by decide, by decide⟩
  have hrun : run panState [Op.drag 5 3]
      = some ((run panState [Op.drag 5 3]).getD panState) := rfl
  exact pan_offset_clamped [Op.drag 5 3] panState _ hinv hrun

theorem rebuild_if_stale_fields (s : ViewState) (key : PKey) (tw th : Frac) :
    (rebuild_if_stale s key tw th).c_level = s.c_level ∧
    (rebuild_if_stale s key tw th).contr = s.contr ∧
    (rebuild_if_stale s key tw th).canvasW = s.canvasW ∧
    (rebuild_if_stale s key tw th).canvasH = s.canvasH ∧
    (rebuild_if_stale s key tw th).old_img = s.old_img ∧
    (rebuild_if_stale s key tw th).outscroll = s.outscroll := by
  unfold rebuild_if_stale
  split <;> exact ⟨rfl, rfl, rfl, rfl, rfl, rfl⟩

theorem rebuild_if_stale_lookup_ne (s : ViewState) (key : PKey) (tw th : Frac)
    (k : PKey) (h : k ≠ key) :
    lookupKey (rebuild_if_stale s key tw th).pyramid k
      = lookupKey s.pyramid k := by
  unfold rebuild_if_stale
  split
  · exact lookupKey_setKey_ne s.pyramid key k _ h
  · rfl

theorem rebuild_and_zoom_spec (s : ViewState) (key : PKey) (tw th : Frac)
    (ex ey : ℤ) (s2 : ViewState)
    (h : rebuild_and_zoom s key tw th ex ey = some s2) :
    s2.c_level = s.c_level ∧ s2.contr = s.contr ∧ s2.canvasH = s.canvasH ∧
    ∀ k, k ≠ key → lookupKey s2.pyramid k = lookupKey s.pyramid k := by
  unfold rebuild_and_zoom zoom_at_cursor zoom_image at h
  split at h
  · rename_i e old heq1 heq2
    have hs2 := Option.some.inj h
    rw [← hs2]
    obtain ⟨f1, f2, f3, f4, f5, f6⟩ := rebuild_if_stale_fields s key tw th
    exact ⟨f1, f2, f4, fun k hk => rebuild_if_stale_lookup_ne s key tw th k hk⟩
  · exact absurd h (by simp)

theorem mouse_scroll_in_shape (s : ViewState) (c : ℤ) (e0 : Entry)
    (ex ey : ℤ) (hc : s.c_level = Lvl.i c) (hmax : c < MAX_INZOOM_LEVEL)
    (he : lookupLvl s s.c_level = some e0)
    (s1 : ViewState) (h : mouse_scroll s 1 ex ey = some s1) :
    s1.c_level = Lvl.i (c + 1) ∧ s1.contr = s.contr ∧
    s1.canvasH = s.canvasH ∧
    lookupKey s1.pyramid (some c) = lookupKey s.pyramid (some c) := by
  unfold mouse_scroll at h
  simp only [he] at h
  rw [if_pos (show (0 : ℤ) < 1 by norm_num)] at h
  split at h
  · rename_i heqc
    rw [hc] at heqc
    exact absurd heqc (by simp)
  · exact absurd h (by simp)
  · rename_i n heqc
    rw [hc] at heqc
    have hcn : c = n := by
      cases heqc
      rfl
    subst hcn
    rw [if_pos hmax] at h
    obtain ⟨hcl, hcon, hch, hlk⟩ := rebuild_and_zoom_spec _ _ _ _ _ _ _ h
    refine ⟨?_, ?_, ?_, ?_⟩
    · rw [hcl]
    · rw [hcon]
    · rw [hch]
    · rw [hlk (some c) (by simp)]

/-- Claim C6: zoom round trip.  From a coherent state at an integer level c
below MAX_INZOOM_LEVEL, a zoom-in step followed by a zoom-out step, with
unchanged contrast and canvas and with the zoom-out not clamped to the fit
level, returns to level c, whose raster dimensions are exactly the original
level-c dimensions (the level-c entry is served from the cache, so the
round trip through the geometric factor and its inverse reproduces the
dimensions exactly, a fortiori within integer rounding). -/
theorem zoom_round_trip (s : ViewState) (c : ℤ) (e : Entry)
    (ex ey ex2 ey2 : ℤ)
    (hc : s.c_level = Lvl.i c) (hmax : c < MAX_INZOOM_LEVEL)
    (he : lookupKey s.pyramid (some c) = some e)
    (hfresh : e.contr = s.contr)
    (s1 : ViewState) (h1 : mouse_scroll s 1 ex ey = some s1)
    (e1 : Entry) (hl1 : lookupLvl s1 s1.c_level = some e1)
    (htall : s.canvasH <
      (Frac.div (Frac.ofInt e1.dims.2) ZOOM_FACTOR).trunc) :
    (mouse_scroll s1 (-1) ex2 ey2).map
        (fun t => (t.c_level, (lookupKey t.pyramid (some c)).map Entry.dims))
      = some (Lvl.i c, some e.dims) := by
  have he0 : lookupLvl s s.c_level = some e := by
    rw [hc]
    exact he
  obtain ⟨hcl1, hcon1, hch1, hlk1⟩ :=
    mouse_scroll_in_shape s c e ex ey hc hmax he0 s1 h1
  have hlkB : lookupKey s1.pyramid (some c) = some e := by
    rw [hlk1]
    exact he
  unfold mouse_scroll
  simp only [hl1]
  rw [if_neg (show ¬ (0 : ℤ) < -1 by norm_num),
    if_pos (show (-1 : ℤ) < 0 by norm_num)]
  rw [if_neg (show ¬ (Frac.div (Frac.ofInt e1.dims.2) ZOOM_FACTOR).trunc
      ≤ s1.canvasH from by
    rw [hch1]
    exact not_le.mpr htall)]
  simp only [hcl1]
  have hcc : c + 1 - 1 = c := by ring
  rw [hcc]
  have hreb : needs_rebuild
      { s1 with old_img := some e1.dims, p_level := some (c + 1),
                c_level := Lvl.i c } (some c) = false := by
    unfold needs_rebuild
    show (match lookupKey s1.pyramid (some c) with
      | none => true
      | some e2 => decide (e2.contr ≠ s1.contr)) = false
    rw [hlkB]
    simp [hfresh, hcon1]
  simp only [rebuild_and_zoom, rebuild_if_stale, hreb, Bool.false_eq_true,
    if_false]
  simp [zoom_at_cursor, zoom_image, lookupLvl, hlkB]

/-- Witness for the zoom round trip: one zoom-in then one zoom-out on the
40 by 40 session over a 10 by 10 canvas returns to level 0 with the
original 40 by 40 dimensions. -/
theorem zoom_round_trip_witness :
    (mouse_scroll zoomS1 (-1) 0 0).map
        (fun t => (t.c_level, (lookupKey t.pyramid (some 0)).map Entry.dims))
      = some (Lvl.i 0, some panEntry.dims) :=
  zoom_round_trip panState 0 panEntry 0 0 0 0 rfl (by decide) rfl rfl
    zoomS1 rfl zoomE1 rfl (by decide)

end MdnaViewer
